import Mathlib

/-!
Shallow embedding of the voice-guidance timing and caching engine of the
alex-workout repository (src/pages/WorkoutSession.tsx and
src/utils/utils/guidance.ts), together with theorems settling the frozen
claims C1..C10 about its specification.

Conventions of the embedding:
* JavaScript numbers that hold durations/timestamps are modelled as `ℚ`
  (milliseconds), rep counts and array indices as `ℤ`/`ℕ`.
* `Date.now()` deltas between consecutive animation frames are passed in
  explicitly; elapsed wall-clock time between ticks is non-negative.
* Asynchronous fire-and-forget audio playback is modelled by recording which
  cue the tick loop decided to emit; the countdown state never depends on it,
  exactly as in the source.
-/

/-- The `Exercise` record (fields as used throughout `src`: `id`, `name`,
`reps`, `repDuration`, `prepTime`, `coolingTime`; the CSV layer confirms this
field set). Durations are seconds. -/
structure Exercise where
  id : String
  name : String
  reps : ℤ
  repDuration : ℚ
  prepTime : ℚ
  coolingTime : ℚ
deriving DecidableEq

instance : Inhabited Exercise := ⟨⟨"", "", 0, 0, 0, 0⟩⟩

/-- The `WorkoutPhase` enumeration (`ANNOUNCE | PREP | WORK | COOL | FINISHED`). -/
inductive WorkoutPhase where
  | ANNOUNCE
  | PREP
  | WORK
  | COOL
  | FINISHED
deriving DecidableEq

/-- Phase duration policy of `setupPhaseTimer` (WorkoutSession.tsx lines 38-42),
in seconds: ANNOUNCE and PREP use `prepTime`, WORK uses `reps * repDuration`,
COOL uses `coolingTime`. -/
def phaseDuration (ex : Exercise) (p : WorkoutPhase) : ℚ :=
  if p = WorkoutPhase.ANNOUNCE ∨ p = WorkoutPhase.PREP then ex.prepTime
  else if p = WorkoutPhase.WORK then ex.reps * ex.repDuration
  else if p = WorkoutPhase.COOL then ex.coolingTime
  else 0

/-- Countdown clock state owned by the run: `totalTimeMs`/`timeLeftMs` React
state of WorkoutSession.tsx. -/
structure ClockState where
  totalTimeMs : ℚ
  timeLeftMs : ℚ
deriving DecidableEq

/-- `setupPhaseTimer` (WorkoutSession.tsx lines 36-54): the clock is
re-initialized with `durationMs = duration * 1000` for both the total and the
remaining time. -/
def setupPhaseTimer (ex : Exercise) (p : WorkoutPhase) : ClockState :=
  let durationMs := phaseDuration ex p * 1000
  ⟨durationMs, durationMs⟩

/-- One pass of the animation-frame `loop` (WorkoutSession.tsx lines 128-215)
restricted to the clock itself: the effect body is gated on
`isPaused || phase = FINISHED || phase = ANNOUNCE` (line 129), and the state
update is `next = Math.max(0, prev - delta)` (line 137), `delta` being the
elapsed wall-clock time since the previous tick. -/
def loopClockStep (isPaused : Bool) (phase : WorkoutPhase) (s : ClockState)
    (delta : ℚ) : ClockState :=
  if isPaused = true ∨ phase = WorkoutPhase.FINISHED ∨ phase = WorkoutPhase.ANNOUNCE then s
  else { s with timeLeftMs := max 0 (s.timeLeftMs - delta) }

/-- A cue the tick loop can decide to emit during a PREP/COOL countdown
(the argument of the fire-and-forget playback calls in the loop). -/
inductive Cue where
  | getReady
  | go
  | motivation (token : String)
  | number (n : ℤ)
deriving DecidableEq

/-- `pickMotToken` (WorkoutSession.tsx line 112):
`(seed) => mot_ followed by ((seed % 10) + 1)`.  All seeds produced by the loop
(`exerciseIndex + currSec`) are non-negative, where JS `%` agrees with `Int.emod`. -/
def pickMotToken (seed : ℤ) : String :=
  "mot_" ++ toString (seed % 10 + 1)

/-- The PREP/COOL voice-countdown branch of the `loop` (WorkoutSession.tsx
lines 140-181) as a pure cue-selection function of one tick.  `prev`/`next` are
the remaining ms before/after the update, `now` is `Date.now()` at this tick and
`suppressUntil` is `suppressCountdownUntilMsRef.current`. Returns the cue the
loop plays, or `none` when this tick stays silent. -/
def countdownCue (phase : WorkoutPhase) (ex : Exercise) (exerciseIndex : ℕ)
    (totalTimeMs prev next now suppressUntil : ℚ) : Option Cue :=
  if phase = WorkoutPhase.PREP ∨ phase = WorkoutPhase.COOL then
    let prevSec : ℤ := ⌈prev / 1000⌉
    let currSec : ℤ := ⌈next / 1000⌉
    if prevSec > currSec then
      if currSec ≤ 0 then none
      else
        let initialSec : ℤ := ⌈totalTimeMs / 1000⌉
        let suppressed := now < suppressUntil
        let critical := currSec ≤ 3
        if phase = WorkoutPhase.PREP ∧ ex.prepTime > 2 ∧ currSec = initialSec then
          some Cue.getReady
        else if phase = WorkoutPhase.PREP ∧ currSec = 1 then
          some Cue.go
        else if (phase = WorkoutPhase.PREP ∧ ex.prepTime ≥ 8 ∧ currSec = 8) ∨
            (phase = WorkoutPhase.COOL ∧ ex.coolingTime ≥ 10 ∧ currSec = 10) then
          some (Cue.motivation (pickMotToken ((exerciseIndex : ℤ) + currSec)))
        else if ¬suppressed ∨ critical then some (Cue.number currSec)
        else none
    else none
  else none

/-- Mutable tick context of the loop: remaining ms, wall clock (`Date.now()`),
and the motivation suppression deadline `suppressCountdownUntilMsRef`. -/
structure PrepTickState where
  timeLeftMs : ℚ
  now : ℚ
  suppressUntil : ℚ
deriving DecidableEq

/-- One animation-frame tick during PREP/COOL: advance the wall clock by
`delta`, update the remaining time (`max 0 (prev - delta)`, line 137), select
the cue via `countdownCue`, and — exactly when the motivation branch fires
(line 167) — arm the suppression window `Date.now() + 2400`. -/
def prepTick (phase : WorkoutPhase) (ex : Exercise) (exerciseIndex : ℕ)
    (totalTimeMs : ℚ) (s : PrepTickState) (delta : ℚ) :
    PrepTickState × Option Cue :=
  let now := s.now + delta
  let next := max 0 (s.timeLeftMs - delta)
  let cue := countdownCue phase ex exerciseIndex totalTimeMs s.timeLeftMs next now
    s.suppressUntil
  let suppress :=
    match cue with
    | some (Cue.motivation _) => now + 2400
    | _ => s.suppressUntil
  (⟨next, now, suppress⟩, cue)

/-- Run the tick loop over a list of frame deltas, returning the final tick
context and, per tick, the wall-clock time and the cue emitted there. -/
def runPrepTicks (phase : WorkoutPhase) (ex : Exercise) (exerciseIndex : ℕ)
    (totalTimeMs : ℚ) (s : PrepTickState) :
    List ℚ → PrepTickState × List (ℚ × Option Cue)
  | [] => (s, [])
  | d :: ds =>
    let step := prepTick phase ex exerciseIndex totalTimeMs s d
    let rest := runPrepTicks phase ex exerciseIndex totalTimeMs step.1 ds
    (rest.1, (step.1.now, step.2) :: rest.2)

/-- Concrete exercise of the spec scenario `{reps:3, repDuration:1, prepTime:3,
coolingTime:0}`. -/
def prepThreeExercise : Exercise := ⟨"e1", "Push ups", 3, 1, 3, 0⟩

/-- Concrete exercise with a 10-second PREP phase (prep-time ≥ 8). -/
def prepTenExercise : Exercise := ⟨"e1", "Push ups", 5, 2, 10, 0⟩

/-- The WORK voice-rep branch of the `loop` (WorkoutSession.tsx lines 184-201):
given the remaining ms before/after a tick, emit the remaining-rep count when
the rep index `floor(elapsed / repDurationMs)` advances and the remaining count
is positive; guarded by `repDurationMs > 0`. -/
def repCue (ex : Exercise) (totalTimeMs prev next : ℚ) : Option ℤ :=
  let elapsedPrev := totalTimeMs - prev
  let elapsedNext := totalTimeMs - next
  let repDurationMs := ex.repDuration * 1000
  if repDurationMs > 0 then
    let prevRepIdx : ℤ := ⌊elapsedPrev / repDurationMs⌋
    let currRepIdx : ℤ := ⌊elapsedNext / repDurationMs⌋
    if currRepIdx > prevRepIdx then
      let repsRemaining := ex.reps - currRepIdx
      if repsRemaining > 0 then some repsRemaining else none
    else none
  else none

/-- Run the WORK tick loop over frame deltas, collecting each emitted rep
call-out together with the elapsed ms at which it fires. -/
def runWorkTicks (ex : Exercise) (totalTimeMs : ℚ) :
    ℚ → List ℚ → List (ℚ × ℤ)
  | _, [] => []
  | prev, d :: ds =>
    let next := max 0 (prev - d)
    let rest := runWorkTicks ex totalTimeMs next ds
    match repCue ex totalTimeMs prev next with
    | some r => (totalTimeMs - next, r) :: rest
    | none => rest

/-- All rep call-outs of a WORK phase: `startPhase(WORK)` (lines 59-63)
announces the total rep count (`n:reps`) at phase entry (elapsed 0), then the
tick loop emits the remaining counts.  The WORK duration is
`reps * repDuration` seconds (`setupPhaseTimer`). -/
def workCallouts (ex : Exercise) (deltas : List ℚ) : List (ℚ × ℤ) :=
  let totalTimeMs := ex.reps * ex.repDuration * 1000
  (0, ex.reps) :: runWorkTicks ex totalTimeMs totalTimeMs deltas

/-- Concrete exercise of the C6 scenario: `reps = 5`, `repDuration = 2` s. -/
def workFiveExercise : Exercise := ⟨"e2", "Squats", 5, 2, 3, 0⟩

/-- Concrete exercise whose `repDuration` is zero (C10). -/
def zeroRepDurationExercise : Exercise := ⟨"e3", "Plank", 3, 0, 5, 0⟩

/-- The reps-left display value (WorkoutSession.tsx lines 264-274): during
WORK, `max 0 (reps - floor(elapsed / repDurationMs))` when `repDurationMs > 0`,
else the full rep count; `none` outside WORK (seconds are shown instead). -/
def repsLeftDisplay (ex : Exercise) (totalTimeMs timeLeftMs : ℚ)
    (phase : WorkoutPhase) : Option ℤ :=
  if phase = WorkoutPhase.WORK then
    let repDurationMs := ex.repDuration * 1000
    if repDurationMs > 0 then
      let elapsedMs := totalTimeMs - timeLeftMs
      let repsCompleted : ℤ := ⌊elapsedMs / repDurationMs⌋
      some (max 0 (ex.reps - repsCompleted))
    else some ex.reps
  else none

/-- A workout run's control state: current exercise index and phase. -/
structure SessionState where
  exerciseIndex : ℕ
  phase : WorkoutPhase
deriving DecidableEq

/-- `handleNextExercise` (WorkoutSession.tsx lines 225-232) combined with the
`exerciseIndex` effect (lines 71-87) that resets the phase to ANNOUNCE when
the index changes: advance to the next exercise's ANNOUNCE, or FINISH after
the last exercise. -/
def handleNextExercise (exercises : List Exercise) (s : SessionState) :
    SessionState :=
  if s.exerciseIndex < exercises.length - 1 then
    { exerciseIndex := s.exerciseIndex + 1, phase := WorkoutPhase.ANNOUNCE }
  else
    { s with phase := WorkoutPhase.FINISHED }

/-- `handlePhaseComplete` (WorkoutSession.tsx lines 217-223): PREP → WORK;
WORK → COOL when `coolingTime > 0`, else straight to the next exercise;
COOL → next exercise. -/
def handlePhaseComplete (exercises : List Exercise) (s : SessionState) :
    SessionState :=
  match exercises.get? s.exerciseIndex with
  | none => s
  | some ex =>
    if s.phase = WorkoutPhase.PREP then { s with phase := WorkoutPhase.WORK }
    else if s.phase = WorkoutPhase.WORK then
      if ex.coolingTime > 0 then { s with phase := WorkoutPhase.COOL }
      else handleNextExercise exercises s
    else if s.phase = WorkoutPhase.COOL then handleNextExercise exercises s
    else s

/-- An audio payload (the bytes of a synthesized clip), modelled opaquely. -/
abbrev Blob := String

/-- The durable guidance store (IndexedDB object store keyed by `key`),
modelled as an association list. -/
abbrev Store := List (String × Blob)

/-- Read a record by key (the `get` request of `dbGet`). -/
def storeGet : Store → String → Option Blob
  | [], _ => none
  | (k, b) :: rest, key => if k = key then some b else storeGet rest key

/-- `dbPut` (guidance.ts lines 52-61): an IndexedDB `put` on a store with
`keyPath: 'key'` is an upsert — replace the record with the same key, or
append a new one. -/
def storePut : Store → String → Blob → Store
  | [], key, b => [(key, b)]
  | (k, v) :: rest, key, b =>
    if k = key then (key, b) :: rest else (k, v) :: storePut rest key b

/-- The object serialized and hashed by `guidanceKey` (guidance.ts line 95):
`{ v: 3, kind, id, exercises, extra }`.  `extra` is `{ token }` for core cues
and `{}` otherwise, modelled as an `Option String`. -/
structure KeyPayload where
  v : ℕ
  kind : String
  id : String
  exercises : List Exercise
  extra : Option String
deriving DecidableEq

/-- `guidanceKey` (guidance.ts lines 94-97):
`guidance:<kind>:<id>:<sha256(JSON.stringify({v:3,kind,id,exercises,extra}))>`.
`JSON.stringify ∘ sha256` is modelled as an abstract function `hash` on the
structured payload (`JSON.stringify` is injective on these records, so key
distinctness reduces to the hash not colliding on the two payloads, which is
made an explicit hypothesis where needed). -/
def guidanceKey (hash : KeyPayload → String) (exercises : List Exercise)
    (extra : Option String) (kind id : String) : String :=
  "guidance:" ++ kind ++ ":" ++ id ++ ":" ++ hash ⟨3, kind, id, exercises, extra⟩

/-- `buildCoreScript` (guidance.ts lines 142-170): the pure token → script
lookup table. -/
def buildCoreScript (token : String) : String :=
  if token = "prep_motivation" then "Lock in. You’ve got this."
  else if token = "prep_motivation_2" then "Breathe in. Focus. You’re ready."
  else if token = "cool_motivation" then "Recover strong. Next set, even better."
  else if token = "get_ready" then "Get ready!"
  else if token = "mot_1" then "Breathe. Reset. You’re in control."
  else if token = "mot_2" then "Strong work. Keep going."
  else if token = "mot_3" then "You’ve got more. Stay with it."
  else if token = "mot_4" then "Discipline now. Results later."
  else if token = "mot_5" then "Good. Smooth and steady."
  else if token = "mot_6" then "Lock in. Next set is yours."
  else if token = "mot_7" then "Stay sharp. Stay clean."
  else if token = "mot_8" then "You’re building momentum."
  else if token = "mot_9" then "Control the pace. Own the rep."
  else if token = "mot_10" then "You’re doing the work. Respect."
  else if token = "go_1" then "Go!"
  else if token = "go_2" then "Start!"
  else if token = "go_3" then "Begin!"
  else if token = "go_4" then "Now!"
  else if token = "go_5" then "Take off!"
  else if token = "go" then "Go!"
  else if token = "rest" then "Rest."
  else if token = "workout_complete" then "Workout complete. Great job."
  else if token.startsWith "n:" then token.drop 2
  else token

/-- A durable-store failure (`dbGet`/`openDb` rejecting — `CacheIOError` in
the spec's taxonomy). -/
inductive CacheIOError where
  | readFailed
deriving DecidableEq

/-- The error-propagation control flow of `getOrGenerateCore` (guidance.ts
lines 260-268): `await getGuidance(key)` either rejects (the promise chain of
`dbGet`, lines 76-86, has no catch anywhere on this path, so the rejection
propagates to the caller), or resolves with the stored blob, or resolves
`null`, in which case — and only then — synthesis runs.  The second component
records whether synthesis (`ttsFromServer`) was invoked. -/
def getOrGenerateCoreE (readResult : Except CacheIOError (Option Blob))
    (synthesized : Blob) : Except CacheIOError Blob × Bool :=
  match readResult with
  | Except.error e => (Except.error e, false)
  | Except.ok (some b) => (Except.ok b, false)
  | Except.ok none => (Except.ok synthesized, true)

/-- The successful-I/O get-or-generate path shared by `getOrGenerateCore`,
`getOrGenerateExerciseAnnounce` and `getOrGenerateMotivation` (guidance.ts
lines 260-288): look up the fingerprint; on a hit return the stored payload;
on a miss synthesize the script text, store the result under the key, and
return it.  The third component records whether synthesis was invoked. -/
def getOrGenerateByKey (synth : String → Blob) (key text : String)
    (s : Store) : Blob × Store × Bool :=
  match storeGet s key with
  | some b => (b, s, false)
  | none =>
    let b := synth text
    (b, storePut s key b, true)

/-- `getOrGenerateCore` (guidance.ts lines 260-268) on the successful-I/O
path: key from `guidanceKey(exercises, {token}, 'core', token)`, script from
`buildCoreScript`. -/
def getOrGenerateCore (hash : KeyPayload → String) (synth : String → Blob)
    (exercises : List Exercise) (token : String) (s : Store) :
    Blob × Store × Bool :=
  getOrGenerateByKey synth (guidanceKey hash exercises (some token) "core" token)
    (buildCoreScript token) s

/-- Sequentially get-or-generate every item (fingerprint key, script text) of
a work list, threading the store — the shape of the Settings → Generate
handler (DataManagement.tsx lines 163-199). -/
def generateAll (synth : String → Blob) (items : List (String × String))
    (s : Store) : Store :=
  items.foldl (fun acc it => (getOrGenerateByKey synth it.1 it.2 acc).2.1) s

/-- The core tokens generated by Settings → Generate, in source order
(DataManagement.tsx lines 171-188): `n:1..n:180`, the three long motivation
lines, `mot_1..mot_10`, `get_ready`, `go_1..go_5`, `rest`,
`workout_complete`. -/
def generateCoreTokens : List String :=
  (List.range 180).map (fun n => "n:" ++ toString (n + 1)) ++
    ["prep_motivation", "prep_motivation_2", "cool_motivation"] ++
    (List.range 10).map (fun i => "mot_" ++ toString (i + 1)) ++
    ["get_ready", "go_1", "go_2", "go_3", "go_4", "go_5", "rest",
      "workout_complete"]

/-- The full Settings → Generate work list: all core cues, then per exercise
its announcement and — for every 4th exercise (index ≡ 0 mod 4) — its
motivation line (DataManagement.tsx lines 190-199).  The announcement and
motivation script-derivation functions (`buildExerciseAnnounceScript`,
`buildMotivationScript` — pure, deterministic) are passed as parameters;
the cached-or-generated behaviour does not depend on the script text. -/
def generateItems (hash : KeyPayload → String)
    (announceScript motScript : Exercise → String) (exs : List Exercise) :
    List (String × String) :=
  generateCoreTokens.map
      (fun t => (guidanceKey hash exs (some t) "core" t, buildCoreScript t)) ++
    (List.range exs.length).flatMap (fun i =>
      match exs.get? i with
      | none => []
      | some ex =>
        (guidanceKey hash exs none "exercise_announce" ex.id,
            announceScript ex) ::
          (if i % 4 = 0 then
            [(guidanceKey hash exs none "motivation" ex.id, motScript ex)]
          else []))

/-- The bulk "generate all guidance" operation: run `generateAll` over the
full work list. -/
def generateAllGuidance (hash : KeyPayload → String) (synth : String → Blob)
    (announceScript motScript : Exercise → String) (exs : List Exercise)
    (s : Store) : Store :=
  generateAll synth (generateItems hash announceScript motScript exs) s

/-- The expected core tokens of `getCacheStatus` (guidance.ts lines 297-301),
in source order: `n:1..n:180`, the six fixed named cues, `go_1..go_5`,
`mot_1..mot_10`. -/
def statusCoreTokens : List String :=
  (List.range 180).map (fun n => "n:" ++ toString (n + 1)) ++
    ["get_ready", "rest", "workout_complete", "prep_motivation",
      "prep_motivation_2", "cool_motivation"] ++
    ["go_1", "go_2", "go_3", "go_4", "go_5"] ++
    (List.range 10).map (fun i => "mot_" ++ toString (i + 1))

/-- The full expected fingerprint set of `getCacheStatus` (guidance.ts lines
294-315): every core token's key, then per exercise its announcement key and
— for every 4th exercise — its motivation key. -/
def expectedKeys (hash : KeyPayload → String) (exs : List Exercise) :
    List String :=
  statusCoreTokens.map (fun t => guidanceKey hash exs (some t) "core" t) ++
    (List.range exs.length).flatMap (fun i =>
      match exs.get? i with
      | none => []
      | some ex =>
        guidanceKey hash exs none "exercise_announce" ex.id ::
          (if i % 4 = 0 then [guidanceKey hash exs none "motivation" ex.id]
          else []))

/-- The result of `getCacheStatus`. -/
structure CacheStatus where
  cached : ℕ
  total : ℕ
  missing : ℕ
deriving DecidableEq

/-- `getCacheStatus` (guidance.ts lines 291-321): count how many expected
fingerprints are among the store's existing keys (`dbKeys`) — a read-only
computation; no get-or-generate accessor and no synthesis call appears on
this path, which the Lean type (no store output, no synthesizer input)
mirrors.  `missing = max 0 (total - cached)` is ℕ-truncated subtraction. -/
def getCacheStatus (hash : KeyPayload → String) (existingKeys : List String)
    (exs : List Exercise) : CacheStatus :=
  let expected := expectedKeys hash exs
  let cached := expected.countP (fun k => existingKeys.contains k)
  ⟨cached, expected.length, expected.length - cached⟩

/-- Exercise used as the renamed variant in the C8 witness. -/
def renamedExercise : Exercise := ⟨"e1", "Pull ups", 3, 1, 3, 0⟩

/-- C1. Countdown clock invariant: starting from `setupPhaseTimer`,
`remainingMs` equals the phase duration and `totalDurationMs`; every tick of
the loop keeps `0 ≤ remainingMs ≤ totalDurationMs`, is non-increasing,
strictly decreases while unpaused (positive elapsed delta, clock not yet at
zero), and leaves the clock frozen while paused. -/
theorem C1_countdown_clock_invariant (isPaused : Bool) (phase : WorkoutPhase)
    (s : ClockState) (delta : ℚ)
    (hlo : 0 ≤ s.timeLeftMs) (hhi : s.timeLeftMs ≤ s.totalTimeMs)
    (hdelta : 0 ≤ delta) :
    (∀ ex p, (setupPhaseTimer ex p).timeLeftMs = phaseDuration ex p * 1000 ∧
      (setupPhaseTimer ex p).totalTimeMs = (setupPhaseTimer ex p).timeLeftMs) ∧
    (0 ≤ (loopClockStep isPaused phase s delta).timeLeftMs ∧
      (loopClockStep isPaused phase s delta).timeLeftMs ≤
        (loopClockStep isPaused phase s delta).totalTimeMs) ∧
    (loopClockStep isPaused phase s delta).timeLeftMs ≤ s.timeLeftMs ∧
    (isPaused = false → phase ≠ WorkoutPhase.FINISHED →
      phase ≠ WorkoutPhase.ANNOUNCE → 0 < delta → 0 < s.timeLeftMs →
      (loopClockStep isPaused phase s delta).timeLeftMs < s.timeLeftMs) ∧
    (isPaused = true → loopClockStep isPaused phase s delta = s) := by
  refine ⟨fun ex p => ⟨rfl, rfl⟩, ?_, ?_, ?_, ?_⟩
  · unfold loopClockStep
    split
    · exact ⟨hlo, hhi⟩
    · refine ⟨le_max_left _ _, ?_⟩
      simp only
      exact max_le (le_trans hlo hhi) (le_trans (sub_le_self _ hdelta) hhi)
  · unfold loopClockStep
    split
    · exact le_refl _
    · exact max_le hlo (sub_le_self _ hdelta)
  · intro hp hf ha hd hpos
    unfold loopClockStep
    rw [if_neg]
    · simp only
      exact max_lt hpos (by linarith)
    · simp [hp, hf, ha]
  · intro hp
    unfold loopClockStep
    rw [if_pos (Or.inl hp)]

/-- Witness for C1 at a concrete unpaused PREP tick. -/
theorem C1_countdown_clock_invariant_witness :
    (0 : ℚ) ≤ 2000 ∧ (2000 : ℚ) ≤ 3000 ∧ (0 : ℚ) ≤ 16 ∧
    (0 ≤ (loopClockStep false WorkoutPhase.PREP ⟨3000, 2000⟩ 16).timeLeftMs ∧
      (loopClockStep false WorkoutPhase.PREP ⟨3000, 2000⟩ 16).timeLeftMs ≤
        (loopClockStep false WorkoutPhase.PREP ⟨3000, 2000⟩ 16).totalTimeMs) :=
  ⟨by norm_num, by norm_num, by norm_num,
    (C1_countdown_clock_invariant false WorkoutPhase.PREP ⟨3000, 2000⟩ 16
      (by norm_num) (by norm_num) (by norm_num)).2.1⟩

/-- On every tick whose pre-update remaining time does not exceed the phase's
total duration, the cue selected is never the "get ready" cue: its guard
`currSec = initialSec` needs `⌈prev/1000⌉ > ⌈totalTimeMs/1000⌉`, impossible
when `prev ≤ totalTimeMs`. -/
theorem countdownCue_ne_getReady (phase : WorkoutPhase) (ex : Exercise)
    (exerciseIndex : ℕ) (totalTimeMs prev next now suppressUntil : ℚ)
    (hle : prev ≤ totalTimeMs) :
    countdownCue phase ex exerciseIndex totalTimeMs prev next now suppressUntil ≠
      some Cue.getReady := by
  intro heq
  have hceil : ⌈prev / 1000⌉ ≤ ⌈totalTimeMs / 1000⌉ := by
    apply Int.ceil_le_ceil
    exact div_le_div_of_nonneg_right hle (by norm_num)
  simp only [countdownCue] at heq
  split_ifs at heq with h1 h2 h3 h4 h5 h6 h7 <;> simp_all
  omega

/-- C2.  The claim's conditional reading of the branch is captured by
`countdownCue`; but the branch is unreachable: on the spec's own scenario
(`prepTime = 3`, on-time ticks) the loop speaks the number 2 and then "go",
and never plays "get ready" — on any tick with `remaining ≤ total` the
"get ready" cue cannot be selected. -/
theorem C2_get_ready_unreachable :
    (runPrepTicks WorkoutPhase.PREP prepThreeExercise 0 3000 ⟨3000, 0, 0⟩
        [1000, 1000, 1000]).2 =
      [(1000, some (Cue.number 2)), (2000, some Cue.go), (3000, none)] ∧
    (∀ phase ex exerciseIndex totalTimeMs prev next now suppressUntil,
      prev ≤ totalTimeMs →
      countdownCue phase ex exerciseIndex totalTimeMs prev next now
        suppressUntil ≠ some Cue.getReady) := by
  constructor
  · with_unfolding_all rfl
  · intro phase ex i total prev next now su hle
    exact countdownCue_ne_getReady phase ex i total prev next now su hle

/-- Witness for C2 at the first PREP tick of the `prepTime = 3` scenario. -/
theorem C2_get_ready_unreachable_witness :
    (3000 : ℚ) ≤ 3000 ∧
    countdownCue WorkoutPhase.PREP prepThreeExercise 0 3000 3000 2000 1000 0 ≠
      some Cue.getReady :=
  ⟨by norm_num,
    C2_get_ready_unreachable.2 WorkoutPhase.PREP prepThreeExercise 0 3000 3000
      2000 1000 0 (by norm_num)⟩

/-- C3 counterexample: in the 10-second PREP run with on-time once-per-second
ticks, the second-5 crossing (wall time 5000 ms, after the 2.4 s suppression
window armed at 2000 ms has expired at 4400 ms) DOES produce a spoken number
cue, contradicting the claim that seconds 7, 6 and 5 all stay silent. -/
theorem C3_second_five_is_spoken :
    ((runPrepTicks WorkoutPhase.PREP prepTenExercise 0 10000 ⟨10000, 0, 0⟩
        (List.replicate 10 1000)).2).get? 4 =
      some ((5000 : ℚ), some (Cue.number 5)) := by
  with_unfolding_all rfl

/-- C3 (amended). In the 10-second PREP run with on-time ticks: second 8 plays
the rotating motivational line `mot_{((exerciseIndex + 8) mod 10) + 1}` and
arms a 2.4-real-second suppression window; seconds 7 and 6 are suppressed
(no cue), but second 5 is spoken because the window has expired. -/
theorem C3_motivation_and_suppression :
    (runPrepTicks WorkoutPhase.PREP prepTenExercise 0 10000 ⟨10000, 0, 0⟩
        (List.replicate 10 1000)).2 =
      [(1000, some (Cue.number 9)), (2000, some (Cue.motivation "mot_9")),
        (3000, none), (4000, none), (5000, some (Cue.number 5)),
        (6000, some (Cue.number 4)), (7000, some (Cue.number 3)),
        (8000, some (Cue.number 2)), (9000, some Cue.go), (10000, none)] ∧
    (runPrepTicks WorkoutPhase.PREP prepTenExercise 0 10000 ⟨10000, 0, 0⟩
        [1000, 1000]).1.suppressUntil = 4400 ∧
    (∀ exerciseIndex : ℕ,
      countdownCue WorkoutPhase.PREP prepTenExercise exerciseIndex 10000 9000
          8000 2000 0 =
        some (Cue.motivation
          ("mot_" ++ toString (((exerciseIndex : ℤ) + 8) % 10 + 1)))) := by
  refine ⟨by with_unfolding_all rfl, by with_unfolding_all rfl, ?_⟩
  intro i
  have h9 : (⌈(9000 : ℚ) / 1000⌉ : ℤ) = 9 := by norm_num
  have h8 : (⌈(8000 : ℚ) / 1000⌉ : ℤ) = 8 := by norm_num
  have h10 : (⌈(10000 : ℚ) / 1000⌉ : ℤ) = 10 := by norm_num
  simp only [countdownCue, pickMotToken, prepTenExercise, h9, h8, h10]
  norm_num

/-- C5. When WORK completes, the run goes to COOL exactly when the exercise's
cooling time is positive; with `coolingTime = 0` it transitions directly to the
next exercise's ANNOUNCE (or to FINISHED after the last exercise) and never
enters COOL. -/
theorem C5_cool_skipped_when_zero (exercises : List Exercise)
    (s : SessionState) (ex : Exercise)
    (hex : exercises.get? s.exerciseIndex = some ex)
    (hph : s.phase = WorkoutPhase.WORK) :
    (ex.coolingTime = 0 →
      handlePhaseComplete exercises s =
        (if s.exerciseIndex < exercises.length - 1 then
          ⟨s.exerciseIndex + 1, WorkoutPhase.ANNOUNCE⟩
        else ⟨s.exerciseIndex, WorkoutPhase.FINISHED⟩) ∧
      (handlePhaseComplete exercises s).phase ≠ WorkoutPhase.COOL) ∧
    (0 < ex.coolingTime →
      handlePhaseComplete exercises s = ⟨s.exerciseIndex, WorkoutPhase.COOL⟩) := by
  obtain ⟨i, p⟩ := s
  simp only at hph
  subst hph
  rw [List.get?_eq_getElem?] at hex
  constructor
  · intro hc
    have hres : handlePhaseComplete exercises ⟨i, WorkoutPhase.WORK⟩ =
        handleNextExercise exercises ⟨i, WorkoutPhase.WORK⟩ := by
      simp [handlePhaseComplete, hex, hc]
    constructor
    · rw [hres]
      unfold handleNextExercise
      split <;> rfl
    · rw [hres]
      unfold handleNextExercise
      split <;> simp
  · intro hc
    simp [handlePhaseComplete, hex, hc]

/-- Witness for C5: two-exercise list, first exercise has `coolingTime = 0`;
WORK completes into the second exercise's ANNOUNCE. -/
theorem C5_cool_skipped_when_zero_witness :
    [prepThreeExercise, workFiveExercise].get? 0 = some prepThreeExercise ∧
    (SessionState.mk 0 WorkoutPhase.WORK).phase = WorkoutPhase.WORK ∧
    prepThreeExercise.coolingTime = 0 ∧
    handlePhaseComplete [prepThreeExercise, workFiveExercise]
        ⟨0, WorkoutPhase.WORK⟩ =
      (if (0 : ℕ) < [prepThreeExercise, workFiveExercise].length - 1 then
        ⟨1, WorkoutPhase.ANNOUNCE⟩
      else ⟨0, WorkoutPhase.FINISHED⟩) :=
  ⟨rfl, rfl, rfl,
    ((C5_cool_skipped_when_zero [prepThreeExercise, workFiveExercise]
      ⟨0, WorkoutPhase.WORK⟩ prepThreeExercise rfl rfl).1 rfl).1⟩

/-- C6. In a WORK phase with `reps = 5`, `repDuration = 2` s and on-time
once-per-second ticks, the call-outs fire at elapsed 0, 2, 4, 6 and 8 seconds
announcing 5, 4, 3, 2 and 1 (the first at phase entry); and the tick loop
never emits a remaining-rep count of 0 (or less). -/
theorem C6_rep_callouts :
    workCallouts workFiveExercise (List.replicate 10 1000) =
      [(0, 5), (2000, 4), (4000, 3), (6000, 2), (8000, 1)] ∧
    (∀ ex totalTimeMs prev next r,
      repCue ex totalTimeMs prev next = some r → 0 < r) := by
  constructor
  · with_unfolding_all rfl
  · intro ex total prev next r heq
    simp only [repCue] at heq
    split_ifs at heq with h1 h2 h3
    simp_all
    omega

/-- Witness for C6's no-zero clause at the elapsed-2-second crossing. -/
theorem C6_rep_callouts_witness :
    repCue workFiveExercise 10000 9000 8000 = some 4 ∧ (0 : ℤ) < 4 :=
  ⟨by with_unfolding_all rfl,
    C6_rep_callouts.2 workFiveExercise 10000 9000 8000 4
      (by with_unfolding_all rfl)⟩

/-- C10. During WORK with `repDuration = 0`: the tick loop emits no rep
call-out (the division is guarded by `repDurationMs > 0`), and the displayed
reps-left value falls back to the full rep count. -/
theorem C10_zero_repDuration_guard (ex : Exercise)
    (totalTimeMs prev next timeLeftMs : ℚ) (h : ex.repDuration = 0) :
    repCue ex totalTimeMs prev next = none ∧
    repsLeftDisplay ex totalTimeMs timeLeftMs WorkoutPhase.WORK =
      some ex.reps := by
  constructor
  · simp [repCue, h]
  · simp [repsLeftDisplay, h]

/-- Witness for C10 on a concrete zero-`repDuration` exercise. -/
theorem C10_zero_repDuration_guard_witness :
    zeroRepDurationExercise.repDuration = 0 ∧
    repCue zeroRepDurationExercise 5000 4000 3000 = none ∧
    repsLeftDisplay zeroRepDurationExercise 5000 2500 WorkoutPhase.WORK =
      some zeroRepDurationExercise.reps :=
  ⟨rfl,
    (C10_zero_repDuration_guard zeroRepDurationExercise 5000 4000 3000 2500
      rfl).1,
    (C10_zero_repDuration_guard zeroRepDurationExercise 5000 4000 3000 2500
      rfl).2⟩

/-- C4 counterexample: at the concrete input where the store read fails,
`getOrGenerateCore` does NOT invoke synthesis and does NOT return an audio
payload — it propagates the error, contrary to the claim. -/
theorem C4_read_failure_counterexample :
    (getOrGenerateCoreE (Except.error CacheIOError.readFailed) "beep").2 =
      false ∧
    ¬ ∃ b, (getOrGenerateCoreE (Except.error CacheIOError.readFailed)
        "beep").1 = Except.ok b := by
  constructor
  · rfl
  · rintro ⟨b, hb⟩
    simp [getOrGenerateCoreE] at hb

/-- C4 (amended). A durable-store read failure during `getOrGenerateCore`
propagates as an error to the caller, with no synthesis; synthesis is invoked
exactly when the read succeeds and finds no entry (the real cache-miss case);
a successful read with a stored entry returns it without synthesis. -/
theorem C4_read_failure_propagates (e : CacheIOError) (synthesized : Blob) :
    getOrGenerateCoreE (Except.error e) synthesized =
      (Except.error e, false) ∧
    (∀ b, getOrGenerateCoreE (Except.ok (some b)) synthesized =
      (Except.ok b, false)) ∧
    getOrGenerateCoreE (Except.ok none) synthesized =
      (Except.ok synthesized, true) :=
  ⟨rfl, fun _ => rfl, rfl⟩

/-- Reading back the key just written. -/
theorem storeGet_storePut_self (s : Store) (key : String) (b : Blob) :
    storeGet (storePut s key b) key = some b := by
  induction s with
  | nil => simp [storePut, storeGet]
  | cons hd tl ih =>
    obtain ⟨k, v⟩ := hd
    by_cases hk : k = key
    · simp [storePut, storeGet, hk]
    · simp [storePut, storeGet, hk, ih]

/-- Writing a different key does not change a read. -/
theorem storeGet_storePut_ne (s : Store) (k key : String) (b : Blob)
    (h : k ≠ key) : storeGet (storePut s k b) key = storeGet s key := by
  induction s with
  | nil => simp [storePut, storeGet, h]
  | cons hd tl ih =>
    obtain ⟨k', v'⟩ := hd
    by_cases hk : k' = k
    · subst hk
      simp [storePut, storeGet, h]
    · simp [storePut, storeGet, hk, ih]

/-- A get-or-generate call preserves every key already present. -/
theorem getOrGenerateByKey_preserves (synth : String → Blob) (k t : String)
    (s : Store) (key : String) (b : Blob) (h : storeGet s key = some b) :
    storeGet (getOrGenerateByKey synth k t s).2.1 key = some b := by
  unfold getOrGenerateByKey
  cases hk : storeGet s k with
  | some v => simpa [hk] using h
  | none =>
    have hne : k ≠ key := fun he => by rw [he, h] at hk; exact Option.noConfusion hk
    simp [hk, storeGet_storePut_ne _ _ _ _ hne, h]

/-- After a get-or-generate call its own key is present. -/
theorem getOrGenerateByKey_present (synth : String → Blob) (k t : String)
    (s : Store) : (storeGet (getOrGenerateByKey synth k t s).2.1 k).isSome := by
  unfold getOrGenerateByKey
  cases hk : storeGet s k with
  | some v => simp [hk]
  | none => simp [hk, storeGet_storePut_self]

/-- A get-or-generate call on a present key is a pure cache hit. -/
theorem getOrGenerateByKey_hit (synth : String → Blob) (k t : String)
    (s : Store) (b : Blob) (h : storeGet s k = some b) :
    getOrGenerateByKey synth k t s = (b, s, false) := by
  unfold getOrGenerateByKey
  simp [h]

/-- `generateAll` preserves every key already present. -/
theorem generateAll_preserves (synth : String → Blob)
    (items : List (String × String)) (s : Store) (key : String) (b : Blob)
    (h : storeGet s key = some b) :
    storeGet (generateAll synth items s) key = some b := by
  induction items generalizing s with
  | nil => simpa [generateAll] using h
  | cons it rest ih =>
    simp only [generateAll, List.foldl_cons] at *
    exact ih _ (getOrGenerateByKey_preserves synth it.1 it.2 s key b h)

/-- After `generateAll`, every item's key is present. -/
theorem generateAll_present (synth : String → Blob)
    (items : List (String × String)) (s : Store) (it : String × String)
    (hit : it ∈ items) :
    (storeGet (generateAll synth items s) it.1).isSome := by
  induction items generalizing s with
  | nil => cases hit
  | cons hd rest ih =>
    simp only [generateAll, List.foldl_cons]
    rcases List.mem_cons.mp hit with heq | hmem
    · subst heq
      have hpres := getOrGenerateByKey_present synth it.1 it.2 s
      cases hb : storeGet (getOrGenerateByKey synth it.1 it.2 s).2.1 it.1 with
      | none => rw [hb] at hpres; exact absurd hpres (by simp)
      | some b =>
        have := generateAll_preserves synth rest _ it.1 b hb
        simp only [generateAll] at this
        simp [this]
    · exact ih _ hmem

/-- `generateAll` over a store where every item's key is already present is a
no-op. -/
theorem generateAll_noop (synth : String → Blob)
    (items : List (String × String)) (s : Store)
    (h : ∀ it ∈ items, (storeGet s it.1).isSome) :
    generateAll synth items s = s := by
  induction items with
  | nil => rfl
  | cons hd rest ih =>
    have hhd := h hd (List.mem_cons_self hd rest)
    cases hb : storeGet s hd.1 with
    | none => rw [hb] at hhd; exact absurd hhd (by simp)
    | some b =>
      simp only [generateAll, List.foldl_cons,
        getOrGenerateByKey_hit synth hd.1 hd.2 s b hb]
      exact ih (fun it hmem => h it (List.mem_cons_of_mem hd hmem))

/-- A second get-or-generate on the same key returns the payload produced by
the first call, leaves the store unchanged, and does not synthesize. -/
theorem getOrGenerateByKey_idem (synth : String → Blob) (k t : String)
    (s : Store) :
    getOrGenerateByKey synth k t (getOrGenerateByKey synth k t s).2.1 =
      ((getOrGenerateByKey synth k t s).1,
        (getOrGenerateByKey synth k t s).2.1, false) := by
  cases hk : storeGet s k with
  | some b =>
    rw [getOrGenerateByKey_hit synth k t s b hk]
    exact getOrGenerateByKey_hit synth k t s b hk
  | none =>
    have h1 : getOrGenerateByKey synth k t s =
        (synth t, storePut s k (synth t), true) := by
      unfold getOrGenerateByKey
      simp [hk]
    rw [h1]
    exact getOrGenerateByKey_hit synth k t _ (synth t)
      (storeGet_storePut_self s k (synth t))

/-- C7. Cache get-or-generate is idempotent: a second `getOrGenerateCore` for
the same exercise sequence and token returns the payload stored by the first
call, without invoking synthesis and without changing the store; and running
`generateAll` (in particular the full bulk "generate all guidance"
operation) twice leaves the cache identical to running it once. -/
theorem C7_get_or_generate_idempotent :
    (∀ (hash : KeyPayload → String) (synth : String → Blob)
      (exercises : List Exercise) (token : String) (s : Store),
      getOrGenerateCore hash synth exercises token
          (getOrGenerateCore hash synth exercises token s).2.1 =
        ((getOrGenerateCore hash synth exercises token s).1,
          (getOrGenerateCore hash synth exercises token s).2.1, false)) ∧
    (∀ (synth : String → Blob) (items : List (String × String)) (s : Store),
      generateAll synth items (generateAll synth items s) =
        generateAll synth items s) ∧
    (∀ (hash : KeyPayload → String) (synth : String → Blob)
      (announceScript motScript : Exercise → String) (exs : List Exercise)
      (s : Store),
      generateAllGuidance hash synth announceScript motScript exs
          (generateAllGuidance hash synth announceScript motScript exs s) =
        generateAllGuidance hash synth announceScript motScript exs s) := by
  have hgen : ∀ (synth : String → Blob) (items : List (String × String))
      (s : Store), generateAll synth items (generateAll synth items s) =
        generateAll synth items s := by
    intro synth items s
    exact generateAll_noop synth items _
      (fun it hmem => generateAll_present synth items s it hmem)
  refine ⟨?_, hgen, ?_⟩
  · intro hash synth exercises token s
    exact getOrGenerateByKey_idem synth _ _ s
  · intro hash synth announceScript motScript exs s
    exact hgen synth _ s

/-- Left cancellation for string concatenation, used to compare fingerprint
keys that share the literal `guidance:<kind>:<id>:` prefix. -/
theorem string_append_left_cancel {a b c : String} (h : a ++ b = a ++ c) :
    b = c := by
  have hd := congrArg String.data h
  simp only [String.data_append] at hd
  exact String.ext (List.append_cancel_left hd)

/-- C8. The cache fingerprint is a deterministic function of the full
exercise sequence: replacing any exercise by one with a different name yields
a different serialized payload for every cue kind/identifier/extra, hence a
different fingerprint key whenever the hash does not collide on the two
payloads (SHA-256 collision-freeness, the only assumption); and identical
inputs always yield the identical key. -/
theorem C8_fingerprint_full_sequence (hash : KeyPayload → String)
    (kind id : String) (extra : Option String) (exs : List Exercise)
    (i : ℕ) (exOld ex' : Exercise)
    (hget : exs.get? i = some exOld)
    (hname : ex'.name ≠ exOld.name) :
    (exs.set i ex' ≠ exs) ∧
    (KeyPayload.mk 3 kind id (exs.set i ex') extra ≠
      KeyPayload.mk 3 kind id exs extra) ∧
    (hash (KeyPayload.mk 3 kind id (exs.set i ex') extra) ≠
        hash (KeyPayload.mk 3 kind id exs extra) →
      guidanceKey hash (exs.set i ex') extra kind id ≠
        guidanceKey hash exs extra kind id) ∧
    (∀ (exs₂ : List Exercise) (extra₂ : Option String) (kind₂ id₂ : String),
      exs = exs₂ → extra = extra₂ → kind = kind₂ → id = id₂ →
      guidanceKey hash exs extra kind id =
        guidanceKey hash exs₂ extra₂ kind₂ id₂) := by
  have hi : i < exs.length := by
    rcases List.get?_eq_some.mp hget with ⟨h, _⟩
    exact h
  have hset : exs.set i ex' ≠ exs := by
    intro heq
    have h2 := congrArg (fun l => l.get? i) heq
    simp only at h2
    rw [List.get?_eq_getElem?, List.get?_eq_getElem?,
      List.getElem?_set_self hi] at h2
    rw [List.get?_eq_getElem?] at hget
    rw [hget] at h2
    exact hname (congrArg Exercise.name (Option.some.inj h2))
  refine ⟨hset, ?_, ?_, ?_⟩
  · intro heq
    injection heq with _ _ _ hexs _
    exact hset hexs
  · intro hhash hkey
    exact hhash (string_append_left_cancel hkey)
  · intro exs₂ extra₂ kind₂ id₂ h1 h2 h3 h4
    subst h1; subst h2; subst h3; subst h4
    rfl

/-- Witness for C8: a one-exercise sequence whose only exercise is renamed,
with a concrete collision-free-on-these-payloads hash (the head exercise's
name). -/
theorem C8_fingerprint_full_sequence_witness :
    [prepThreeExercise].get? 0 = some prepThreeExercise ∧
    renamedExercise.name ≠ prepThreeExercise.name ∧
    (fun p : KeyPayload => (p.exercises.headD default).name)
        ⟨3, "core", "go", [prepThreeExercise].set 0 renamedExercise,
          some "go"⟩ ≠
      (fun p : KeyPayload => (p.exercises.headD default).name)
        ⟨3, "core", "go", [prepThreeExercise], some "go"⟩ ∧
    guidanceKey (fun p => (p.exercises.headD default).name)
        ([prepThreeExercise].set 0 renamedExercise) (some "go") "core" "go" ≠
      guidanceKey (fun p => (p.exercises.headD default).name)
        [prepThreeExercise] (some "go") "core" "go" :=
  ⟨rfl, by decide, by decide,
    (C8_fingerprint_full_sequence
      (fun p => (p.exercises.headD default).name) "core" "go" (some "go")
      [prepThreeExercise] 0 prepThreeExercise renamedExercise rfl
      (by decide)).2.2.1 (by decide)⟩

/-- C9. `getCacheStatus` on any 5-exercise list with an empty store reports
`cached = 0`, `total = 208` (180 numeric cues + 21 fixed named cues
(6 named + 5 go-variants + 10 rotating motivation lines) + 5 per-exercise
announcements + 2 every-4th-exercise motivation entries, at indices 0 and 4)
and `missing = total`; the computation is a pure read (its type consumes only
the existing keys and produces only counts — no synthesis, no store write). -/
theorem C9_cache_status_empty_store (hash : KeyPayload → String)
    (exs : List Exercise) (h5 : exs.length = 5) :
    getCacheStatus hash [] exs = ⟨0, 208, 208⟩ := by
  rcases exs with _ | ⟨a, _ | ⟨b, _ | ⟨c, _ | ⟨d, _ | ⟨e, rest⟩⟩⟩⟩⟩
  · simp at h5
  · simp at h5
  · simp at h5
  · simp at h5
  · simp at h5
  · have hrest : rest = [] := by
      simp only [List.length_cons] at h5
      exact List.length_eq_zero.mp (by omega)
    subst hrest
    have hr : List.range 5 = [0, 1, 2, 3, 4] := rfl
    have hcount : (expectedKeys hash [a, b, c, d, e]).countP
        (fun k => List.contains [] k) = 0 := by
      simp [List.countP_eq_zero]
    have hlen : (expectedKeys hash [a, b, c, d, e]).length = 208 := by
      simp [expectedKeys, statusCoreTokens, hr]
    simp [getCacheStatus, hcount, hlen]

/-- Witness for C9 on a concrete 5-exercise list and a concrete hash. -/
theorem C9_cache_status_empty_store_witness :
    ([prepThreeExercise, prepTenExercise, workFiveExercise,
        zeroRepDurationExercise, renamedExercise] : List Exercise).length =
      5 ∧
    getCacheStatus (fun _ => "") []
        [prepThreeExercise, prepTenExercise, workFiveExercise,
          zeroRepDurationExercise, renamedExercise] =
      ⟨0, 208, 208⟩ :=
  ⟨rfl, C9_cache_status_empty_store (fun _ => "")
    [prepThreeExercise, prepTenExercise, workFiveExercise,
      zeroRepDurationExercise, renamedExercise] rfl⟩
